import Mathlib

/-!
Verification development for the InfiAgent repository (two modules:
`mcp_server.py`, a stateful pandas tool executor, and `mcp_client.py`,
a model/tool conversation loop).  The Python code is shallowly embedded:
the server's global `df` becomes an explicit `ServerState` threaded
through each tool, numeric cell values are modelled as rationals
(the ordering and equality properties at stake are independent of
floating-point rounding), a raised Python exception (a failed `assert`
or a pandas `KeyError`) becomes an `Except.error` carrying the message,
and the client's unbounded `while True` loop becomes a fuel-indexed
recursion where exhausting every fuel models non-termination.
-/

namespace InfiAgent

/-! ## Server: data model (`mcp_server.py`)

A loaded pandas `DataFrame` is a rectangular table: a list of column
names and a list of rows, each row a list of cells aligned with the
columns. -/

structure Dataset where
  cols : List String
  rows : List (List ℚ)
deriving DecidableEq, Repr

/-- The server's single mutable global `df : Optional[DataFrame]`. -/
structure ServerState where
  df : Option Dataset
deriving DecidableEq, Repr

/-- Index of a column label, as pandas column selection `df[c]` resolves it. -/
def Dataset.colIdx (d : Dataset) (c : String) : Option Nat :=
  d.cols.findIdx? (fun s => s == c)

/-- Cell of row `r` at column index `i`.  Loaded CSV frames are rectangular,
so the default is never consulted on states produced by `load_data`. -/
def cellAt (r : List ℚ) (i : Nat) : ℚ :=
  r.getD i 0

/-- The values of column index `i`, i.e. the pandas Series `df[c]`. -/
def Dataset.column (d : Dataset) (i : Nat) : List ℚ :=
  d.rows.map (fun r => cellAt r i)

/-- The message of the `assert df is not None` guard in every
dataset-dependent tool. -/
def assertMsg : String := "Must execute `load_data` first."

/-- Message of the pandas `KeyError` raised by `df[c]` for a missing column. -/
def keyErrorMsg (c : String) : String := "KeyError: " ++ c

/-- The structured dict a mutating tool returns: either
`\x7b'success': True, 'information': \x7b'data size': n\x7d\x7d` or
`\x7b'success': False, 'information': \x7b'error message': m\x7d\x7d`. -/
inductive ToolResult where
  | success (dataSize : Nat)
  | failure (errorMessage : String)
deriving DecidableEq, Repr

/-! ## Server: path resolution inside `load_data` (lines 22-25)

Python string operations are modelled on the underlying character
lists: `endswith` is `List.isSuffixOf`, `startswith` is
`List.isPrefixOf`, `+` is `List.append`. -/

/-- The hardcoded `'.csv'` extension, as a character list. -/
def csvExt : List Char := ".csv".toList

/-- The hardcoded base directory `'examples/DA-Agent/data/da-dev-tables/'`. -/
def baseDir : List Char := "examples/DA-Agent/data/da-dev-tables/".toList

/-- The path normalisation of `load_data`: append `.csv` if the name does
not end with it, then prepend the base directory if the (possibly
extended) name does not start with it. -/
def resolvePath (file_name : List Char) : List Char :=
  let f1 := if csvExt.isSuffixOf file_name then file_name else file_name ++ csvExt
  if baseDir.isPrefixOf f1 then f1 else baseDir ++ f1

/-- `load_data(file_name)`: resolve the path, read the CSV through the
file-system oracle `fs` (`pd.read_csv` raising on a missing/at-fault file
is `fs = none`), replace the dataset wholesale and report the row count. -/
def load_data (fs : List Char → Option Dataset) (s : ServerState)
    (file_name : List Char) : Except String ToolResult × ServerState :=
  match fs (resolvePath file_name) with
  | none => (.error ("FileNotFoundError: " ++ String.mk (resolvePath file_name)), s)
  | some d => (.ok (.success d.rows.length), ⟨some d⟩)

/-! ## Server: dataset-dependent tools

Each tool takes the pre-state and returns the Python function's outcome
(`Except.error` for a raised exception) together with the post-state. -/

/-- `get_column_names()`: `df.columns.tolist()`. -/
def get_column_names (s : ServerState) : Except String (List String) × ServerState :=
  match s.df with
  | none => (.error assertMsg, s)
  | some d => (.ok d.cols, s)

/-- The summary that `Series.describe().to_dict()` yields for a numeric
column: count, mean, min, the three quartiles and max.  The `std` entry of
the source involves a square root, which has no exact rational value; it is
omitted here, as no claim concerns the numeric content of this payload. -/
structure DescribeStats where
  count : Nat
  mean : ℚ
  min : ℚ
  q25 : ℚ
  q50 : ℚ
  q75 : ℚ
  max : ℚ
deriving DecidableEq, Repr

/-- Pandas `Series.quantile(q)` with the default linear interpolation:
on the sorted values `v_0 ≤ … ≤ v_(n-1)`, the value at fractional
position `h = q * (n - 1)`.  Junk value 0 on an empty series (pandas
yields NaN there; every claim touching quantiles filters an empty row
list to an empty row list either way). -/
def seriesQuantile (xs : List ℚ) (q : ℚ) : ℚ :=
  let s := xs.insertionSort (· ≤ ·)
  if xs.length = 0 then 0
  else
    let h : ℚ := q * ((xs.length : ℚ) - 1)
    let lo := (⌊h⌋).toNat
    let hi := (⌈h⌉).toNat
    s.getD lo 0 + (h - (lo : ℚ)) * (s.getD hi 0 - s.getD lo 0)

/-- Mean of a series, `Series.mean()`; division by zero yields the junk
rational 0 on an empty column (pandas: NaN). -/
def seriesMean (xs : List ℚ) : ℚ :=
  (xs.sum) / (xs.length : ℚ)

/-- Sample variance of a series with `ddof = 1`, the square of
`Series.std()`.  The source returns the square root of this quantity;
the radicand is modelled since no claim concerns the numeric value. -/
def seriesVariance (xs : List ℚ) : ℚ :=
  ((xs.map (fun x => (x - seriesMean xs) ^ 2)).sum) / ((xs.length : ℚ) - 1)

/-- `describe_column(column_name)`: `df[column_name].describe().to_dict()`. -/
def describe_column (s : ServerState) (c : String) :
    Except String DescribeStats × ServerState :=
  match s.df with
  | none => (.error assertMsg, s)
  | some d =>
    match d.colIdx c with
    | none => (.error (keyErrorMsg c), s)
    | some i =>
      let col := d.column i
      (.ok ⟨col.length, seriesMean col, seriesQuantile col 0, seriesQuantile col (1/4),
        seriesQuantile col (1/2), seriesQuantile col (3/4), seriesQuantile col 1⟩, s)

/-- `get_value_counts(column_name)`: `df[column_name].value_counts().to_dict()`,
the mapping value ↦ number of occurrences (modelled as an association list
over the distinct values; the dict is unordered as a mapping). -/
def get_value_counts (s : ServerState) (c : String) :
    Except String (List (ℚ × Nat)) × ServerState :=
  match s.df with
  | none => (.error assertMsg, s)
  | some d =>
    match d.colIdx c with
    | none => (.error (keyErrorMsg c), s)
    | some i =>
      let col := d.column i
      (.ok (col.dedup.map (fun v => (v, col.count v))), s)

/-- The error dict for an unrecognized `by` argument of `filter`:
`f"Unrecognized value for \x60by\x60: \"\x7bby\x7d\"."`. -/
def unrecognizedByMsg (b : String) : String :=
  "Unrecognized value for `by`: \"" ++ b ++ "\"."

/-- One comparison branch of `filter`: select the column (pandas raises
`KeyError` if absent), keep the rows whose cell satisfies `cmp · value`,
and report the new size. -/
def applyFilter (s : ServerState) (d : Dataset) (c : String) (v : ℚ)
    (cmp : ℚ → ℚ → Bool) : Except String ToolResult × ServerState :=
  match d.colIdx c with
  | none => (.error (keyErrorMsg c), s)
  | some i =>
    let d2 : Dataset := ⟨d.cols, d.rows.filter (fun r => cmp (cellAt r i) v)⟩
    (.ok (.success d2.rows.length), ⟨some d2⟩)

/-- `filter(column_name, value, by)` (`mcp_server.py` lines 52-93): guard on
the dataset, dispatch on the five comparator strings, and answer the
structured failure dict, leaving `df` untouched, on any other string. -/
def filterTool (s : ServerState) (c : String) (v : ℚ) (b : String) :
    Except String ToolResult × ServerState :=
  match s.df with
  | none => (.error assertMsg, s)
  | some d =>
    if b = "equal" then applyFilter s d c v (fun x y => decide (x = y))
    else if b = "less" then applyFilter s d c v (fun x y => decide (x < y))
    else if b = "less/equal" then applyFilter s d c v (fun x y => decide (x ≤ y))
    else if b = "greater" then applyFilter s d c v (fun x y => decide (y < x))
    else if b = "greater/equal" then applyFilter s d c v (fun x y => decide (y ≤ x))
    else (.ok (.failure (unrecognizedByMsg b)), s)

/-- The five comparator strings `filter` documents and accepts. -/
def validComparators : List String :=
  ["equal", "less", "less/equal", "greater", "greater/equal"]

/-- `remove_outliers(column_name)` (`mcp_server.py` lines 95-111): keep the
rows whose cell lies in the closed interval
`[q1 - 1.5*iqr, q3 + 1.5*iqr]` and report the new size. -/
def remove_outliers (s : ServerState) (c : String) :
    Except String ToolResult × ServerState :=
  match s.df with
  | none => (.error assertMsg, s)
  | some d =>
    match d.colIdx c with
    | none => (.error (keyErrorMsg c), s)
    | some i =>
      let col := d.column i
      let q1 := seriesQuantile col (1/4)
      let q3 := seriesQuantile col (3/4)
      let iqr := q3 - q1
      let lower := q1 - (3/2) * iqr
      let upper := q3 + (3/2) * iqr
      let d2 : Dataset := ⟨d.cols,
        d.rows.filter (fun r => decide (lower ≤ cellAt r i) && decide (cellAt r i ≤ upper))⟩
      (.ok (.success d2.rows.length), ⟨some d2⟩)

/-- `compute_mean(column_name)`: `df[column_name].mean()`. -/
def compute_mean (s : ServerState) (c : String) : Except String ℚ × ServerState :=
  match s.df with
  | none => (.error assertMsg, s)
  | some d =>
    match d.colIdx c with
    | none => (.error (keyErrorMsg c), s)
    | some i => (.ok (seriesMean (d.column i)), s)

/-- `compute_standard_deviation(column_name)`: `df[column_name].std()`.
The source returns the square root of the sample variance; the radicand is
the modelled payload (see `seriesVariance`). -/
def compute_standard_deviation (s : ServerState) (c : String) :
    Except String ℚ × ServerState :=
  match s.df with
  | none => (.error assertMsg, s)
  | some d =>
    match d.colIdx c with
    | none => (.error (keyErrorMsg c), s)
    | some i => (.ok (seriesVariance (d.column i)), s)

/-! ## Client: the conversation loop (`mcp_client.py`, `process_query`)

The model boundary is an oracle `Nat → Finish` giving the outcome of the
`k`-th `chat.completions.create` call (0-based); the tool boundary is an
oracle `String → String → String` giving the rendered `result.content`
for a tool name and argument rendering.  The `while True:` loop becomes a
fuel-indexed recursion: a run that returns `none` at every fuel never
terminates.  The loop state is instrumented with counters, an event log
of dispatched tool calls and the message snapshot passed to each model
call — all write-only fields the control flow never reads. -/

/-- One entry of the `messages` history list. -/
structure Msg where
  role : String
  content : String
deriving DecidableEq, Repr

/-- One requested tool call: `tool_call.function.name` and the rendering
of the parsed `tool_args` dict. -/
structure ToolCall where
  name : String
  args : String
deriving DecidableEq, Repr

/-- A model response, as `process_query` discriminates it:
`finish_reason == 'stop'` with the message content, `'tool_calls'` with
the ordered requested calls, or any other finish reason. -/
inductive Finish where
  | stop (content : String)
  | toolCalls (calls : List ToolCall)
  | other (reason : String)
deriving DecidableEq, Repr

/-- The `f"[Calling tool \x7btool_name\x7d with args \x7btool_args\x7d]"` line. -/
def callingLine (name args : String) : String :=
  "[Calling tool " ++ name ++ " with args " ++ args ++ "]"

/-- The `f"[Tool response: \x7bresult.content\x7d]"` line. -/
def responseLine (content : String) : String :=
  "[Tool response: " ++ content ++ "]"

/-- The loop state of `process_query`: the `messages` list, the
`final_text` accumulator, the current `response`, plus instrumentation
(model-call count, tool-invocation count, the `(name, args, result)`
event log in dispatch order, and the `messages` snapshot passed to each
model call). -/
structure LoopState where
  messages : List Msg
  finalText : List String
  resp : Finish
  modelCalls : Nat
  toolInvocations : Nat
  events : List (String × String × String)
  callInputs : List (List Msg)
deriving DecidableEq, Repr

/-- The body of `for tool_call in content.message.tool_calls:` for one
call: invoke the tool, extend `final_text` and `messages`, then issue the
next model call on the updated history. -/
def dispatchOne (oracle : Nat → Finish) (tools : String → String → String)
    (tc : ToolCall) (st : LoopState) : LoopState :=
  let result := tools tc.name tc.args
  let ms := st.messages ++ [⟨"assistant", callingLine tc.name tc.args⟩, ⟨"user", result⟩]
  { messages := ms
    finalText := st.finalText ++ [callingLine tc.name tc.args, responseLine result]
    resp := oracle st.modelCalls
    modelCalls := st.modelCalls + 1
    toolInvocations := st.toolInvocations + 1
    events := st.events ++ [(tc.name, tc.args, result)]
    callInputs := st.callInputs ++ [ms] }

/-- The full `for` loop over one turn's requested tool calls, in the
order the model emitted them. -/
def dispatchCalls (oracle : Nat → Finish) (tools : String → String → String) :
    List ToolCall → LoopState → LoopState
  | [], st => st
  | tc :: rest, st => dispatchCalls oracle tools rest (dispatchOne oracle tools tc st)

/-- The `while True:` loop of `process_query`.  `stop` appends the final
content and returns `"\n".join(final_text)`; `tool_calls` dispatches the
turn and continues; any other finish reason prints a diagnostic and
continues with the state — including the response — unchanged. -/
def runLoop (oracle : Nat → Finish) (tools : String → String → String) :
    Nat → LoopState → Option (String × LoopState)
  | 0, _ => none
  | fuel + 1, st =>
    match st.resp with
    | .stop c =>
      let st2 := { st with finalText := st.finalText ++ [c] }
      some (String.intercalate "\n" st2.finalText, st2)
    | .toolCalls cs => runLoop oracle tools fuel (dispatchCalls oracle tools cs st)
    | .other _ => runLoop oracle tools fuel st

/-- The state just before the loop: history `[user query]`, one model
call already made, its response pending. -/
def initState (oracle : Nat → Finish) (query : String) : LoopState :=
  { messages := [⟨"user", query⟩]
    finalText := []
    resp := oracle 0
    modelCalls := 1
    toolInvocations := 0
    events := []
    callInputs := [[⟨"user", query⟩]] }

/-- `process_query(query)` under the two oracles, with the given fuel. -/
def process_query (oracle : Nat → Finish) (tools : String → String → String)
    (query : String) (fuel : Nat) : Option (String × LoopState) :=
  runLoop oracle tools fuel (initState oracle query)

/-- The caller-visible transcript of an event log: a calling line and a
response line for each tool invocation, in order. -/
def transcript (events : List (String × String × String)) : List String :=
  events.flatMap (fun e => [callingLine e.1 e.2.1, responseLine e.2.2])

/-! ## Spec-side predicates and example data -/

/-- The comparison the spec states for each comparator string. -/
def compSat (b : String) (x v : ℚ) : Prop :=
  if b = "equal" then x = v
  else if b = "less" then x < v
  else if b = "less/equal" then x ≤ v
  else if b = "greater" then v < x
  else if b = "greater/equal" then v ≤ x
  else False

/-- A small concrete table used by the witness theorems. -/
def dEx : Dataset := ⟨["a"], [[1], [3]]⟩

/-! ## Helper lemmas -/

lemma get_column_names_state (s : ServerState) : (get_column_names s).2 = s := by
  obtain ⟨df⟩ := s
  cases df <;> rfl

lemma describe_column_state (s : ServerState) (c : String) :
    (describe_column s c).2 = s := by
  obtain ⟨df⟩ := s
  cases df with
  | none => rfl
  | some d =>
    unfold describe_column
    cases h : d.colIdx c <;> simp [h]

lemma get_value_counts_state (s : ServerState) (c : String) :
    (get_value_counts s c).2 = s := by
  obtain ⟨df⟩ := s
  cases df with
  | none => rfl
  | some d =>
    unfold get_value_counts
    cases h : d.colIdx c <;> simp [h]

lemma compute_mean_state (s : ServerState) (c : String) :
    (compute_mean s c).2 = s := by
  obtain ⟨df⟩ := s
  cases df with
  | none => rfl
  | some d =>
    unfold compute_mean
    cases h : d.colIdx c <;> simp [h]

lemma compute_standard_deviation_state (s : ServerState) (c : String) :
    (compute_standard_deviation s c).2 = s := by
  obtain ⟨df⟩ := s
  cases df with
  | none => rfl
  | some d =>
    unfold compute_standard_deviation
    cases h : d.colIdx c <;> simp [h]

/-! ## Claim theorems -/

/-- C1: every dataset-dependent tool (`get_column_names`,
`describe_column`, `get_value_counts`, `filter`, `remove_outliers`,
`compute_mean`, `compute_standard_deviation`), invoked while no dataset
has been loaded, yields the structured precondition failure carrying the
message `Must execute load_data first.` — a value of the result type,
never an unstructured fault. -/
theorem tools_before_load_fail_with_guard_message (c : String) (v : ℚ) (b : String) :
    (get_column_names ⟨none⟩).1 = .error assertMsg ∧
    (describe_column ⟨none⟩ c).1 = .error assertMsg ∧
    (get_value_counts ⟨none⟩ c).1 = .error assertMsg ∧
    (filterTool ⟨none⟩ c v b).1 = .error assertMsg ∧
    (remove_outliers ⟨none⟩ c).1 = .error assertMsg ∧
    (compute_mean ⟨none⟩ c).1 = .error assertMsg ∧
    (compute_standard_deviation ⟨none⟩ c).1 = .error assertMsg :=
  ⟨rfl, rfl, rfl, rfl, rfl, rfl, rfl⟩

/-- C4: on a loaded dataset, `filter` with a comparator outside the five
recognized strings returns the structured failure naming the comparator
and leaves the dataset state untouched. -/
theorem filter_unrecognized_comparator_fails_structurally
    (d : Dataset) (c : String) (v : ℚ) (b : String)
    (hb : b ∉ validComparators) :
    filterTool ⟨some d⟩ c v b =
      (.ok (.failure ("Unrecognized value for `by`: \"" ++ b ++ "\".")), ⟨some d⟩) := by
  simp only [validComparators, List.mem_cons, List.not_mem_nil, or_false, not_or] at hb
  obtain ⟨h1, h2, h3, h4, h5⟩ := hb
  simp [filterTool, unrecognizedByMsg, h1, h2, h3, h4, h5]

/-- Witness for C4 at the comparator string `bogus`. -/
theorem filter_unrecognized_comparator_fails_structurally_witness :
    filterTool ⟨some dEx⟩ "a" 2 "bogus" =
      (.ok (.failure ("Unrecognized value for `by`: \"" ++ "bogus" ++ "\".")), ⟨some dEx⟩) :=
  filter_unrecognized_comparator_fails_structurally dEx "a" 2 "bogus" (by decide)

/-- C7: the descriptive tools `get_column_names`, `describe_column`,
`get_value_counts`, `compute_mean` and `compute_standard_deviation` are
read-only: on a loaded dataset the server state after any of them equals
the state before, so rows and columns are unchanged. -/
theorem readonly_tools_preserve_dataset (s : ServerState) (d : Dataset) (c : String)
    (h : s.df = some d) :
    (get_column_names s).2 = s ∧
    (describe_column s c).2 = s ∧
    (get_value_counts s c).2 = s ∧
    (compute_mean s c).2 = s ∧
    (compute_standard_deviation s c).2 = s :=
  ⟨get_column_names_state s, describe_column_state s c, get_value_counts_state s c,
    compute_mean_state s c, compute_standard_deviation_state s c⟩

/-- Witness for C7 on a concrete loaded table. -/
theorem readonly_tools_preserve_dataset_witness :
    (get_column_names ⟨some dEx⟩).2 = (⟨some dEx⟩ : ServerState) ∧
    (describe_column ⟨some dEx⟩ "a").2 = (⟨some dEx⟩ : ServerState) ∧
    (get_value_counts ⟨some dEx⟩ "a").2 = (⟨some dEx⟩ : ServerState) ∧
    (compute_mean ⟨some dEx⟩ "a").2 = (⟨some dEx⟩ : ServerState) ∧
    (compute_standard_deviation ⟨some dEx⟩ "a").2 = (⟨some dEx⟩ : ServerState) :=
  readonly_tools_preserve_dataset ⟨some dEx⟩ dEx "a" rfl

/-! ## Filter lemmas -/

lemma filterTool_equal (d : Dataset) (c : String) (v : ℚ) :
    filterTool ⟨some d⟩ c v "equal" = applyFilter ⟨some d⟩ d c v (fun x y => decide (x = y)) := rfl

lemma filterTool_less (d : Dataset) (c : String) (v : ℚ) :
    filterTool ⟨some d⟩ c v "less" = applyFilter ⟨some d⟩ d c v (fun x y => decide (x < y)) := rfl

lemma filterTool_le (d : Dataset) (c : String) (v : ℚ) :
    filterTool ⟨some d⟩ c v "less/equal" =
      applyFilter ⟨some d⟩ d c v (fun x y => decide (x ≤ y)) := rfl

lemma filterTool_greater (d : Dataset) (c : String) (v : ℚ) :
    filterTool ⟨some d⟩ c v "greater" =
      applyFilter ⟨some d⟩ d c v (fun x y => decide (y < x)) := rfl

lemma filterTool_ge (d : Dataset) (c : String) (v : ℚ) :
    filterTool ⟨some d⟩ c v "greater/equal" =
      applyFilter ⟨some d⟩ d c v (fun x y => decide (y ≤ x)) := rfl

lemma compSat_equal (x v : ℚ) : compSat "equal" x v ↔ x = v := Iff.rfl

lemma compSat_less (x v : ℚ) : compSat "less" x v ↔ x < v := Iff.rfl

lemma compSat_le (x v : ℚ) : compSat "less/equal" x v ↔ x ≤ v := Iff.rfl

lemma compSat_greater (x v : ℚ) : compSat "greater" x v ↔ v < x := Iff.rfl

lemma compSat_ge (x v : ℚ) : compSat "greater/equal" x v ↔ v ≤ x := Iff.rfl

/-- The common shape of one recognized `filter` branch: the result is the
sub-table of rows whose cell satisfies the comparison, and nothing else. -/
lemma applyFilter_spec (d : Dataset) (c : String) (v : ℚ) (i : Nat)
    (cmp : ℚ → ℚ → Bool) (P : ℚ → ℚ → Prop)
    (hP : ∀ x y, cmp x y = true ↔ P x y)
    (hc : d.colIdx c = some i) :
    ∃ d2 : Dataset,
      applyFilter ⟨some d⟩ d c v cmp = (.ok (.success d2.rows.length), ⟨some d2⟩) ∧
      d2.cols = d.cols ∧
      d2.rows = d.rows.filter (fun r => cmp (cellAt r i) v) ∧
      d2.rows.length ≤ d.rows.length ∧
      (∀ r ∈ d2.rows, r ∈ d.rows ∧ P (cellAt r i) v) ∧
      (∀ r ∈ d.rows, r ∉ d2.rows → ¬ P (cellAt r i) v) := by
  refine ⟨⟨d.cols, d.rows.filter (fun r => cmp (cellAt r i) v)⟩, ?_, rfl, rfl, ?_, ?_, ?_⟩
  · unfold applyFilter
    rw [hc]
  · exact List.length_filter_le _ _
  · intro r hr
    rw [List.mem_filter] at hr
    exact ⟨hr.1, (hP _ _).mp hr.2⟩
  · intro r hr hnot hPr
    exact hnot (List.mem_filter.mpr ⟨hr, (hP _ _).mpr hPr⟩)

/-- C2: on a loaded dataset with the named column present and a recognized
comparator, `filter` produces a table with at most the original number of
rows, in which every retained row satisfies the stated comparison of its
column value against the given value and every excluded row fails it, and
reports the new row count in its success result. -/
theorem filter_retains_exactly_matching_rows
    (d : Dataset) (c : String) (v : ℚ) (b : String) (i : Nat)
    (hc : d.colIdx c = some i) (hb : b ∈ validComparators) :
    ∃ d2 : Dataset,
      filterTool ⟨some d⟩ c v b = (.ok (.success d2.rows.length), ⟨some d2⟩) ∧
      d2.rows.length ≤ d.rows.length ∧
      (∀ r ∈ d2.rows, r ∈ d.rows ∧ compSat b (cellAt r i) v) ∧
      (∀ r ∈ d.rows, r ∉ d2.rows → ¬ compSat b (cellAt r i) v) := by
  simp only [validComparators, List.mem_cons, List.not_mem_nil, or_false] at hb
  rcases hb with rfl | rfl | rfl | rfl | rfl
  · obtain ⟨d2, he, _, _, h4, h5, h6⟩ :=
      applyFilter_spec d c v i (fun x y => decide (x = y)) (fun x y => x = y)
        (fun x y => by simp) hc
    exact ⟨d2, by rw [filterTool_equal, he], h4,
      fun r hr => ⟨(h5 r hr).1, (compSat_equal _ _).mpr (h5 r hr).2⟩,
      fun r hr hn hs => h6 r hr hn ((compSat_equal _ _).mp hs)⟩
  · obtain ⟨d2, he, _, _, h4, h5, h6⟩ :=
      applyFilter_spec d c v i (fun x y => decide (x < y)) (fun x y => x < y)
        (fun x y => by simp) hc
    exact ⟨d2, by rw [filterTool_less, he], h4,
      fun r hr => ⟨(h5 r hr).1, (compSat_less _ _).mpr (h5 r hr).2⟩,
      fun r hr hn hs => h6 r hr hn ((compSat_less _ _).mp hs)⟩
  · obtain ⟨d2, he, _, _, h4, h5, h6⟩ :=
      applyFilter_spec d c v i (fun x y => decide (x ≤ y)) (fun x y => x ≤ y)
        (fun x y => by simp) hc
    exact ⟨d2, by rw [filterTool_le, he], h4,
      fun r hr => ⟨(h5 r hr).1, (compSat_le _ _).mpr (h5 r hr).2⟩,
      fun r hr hn hs => h6 r hr hn ((compSat_le _ _).mp hs)⟩
  · obtain ⟨d2, he, _, _, h4, h5, h6⟩ :=
      applyFilter_spec d c v i (fun x y => decide (y < x)) (fun x y => y < x)
        (fun x y => by simp) hc
    exact ⟨d2, by rw [filterTool_greater, he], h4,
      fun r hr => ⟨(h5 r hr).1, (compSat_greater _ _).mpr (h5 r hr).2⟩,
      fun r hr hn hs => h6 r hr hn ((compSat_greater _ _).mp hs)⟩
  · obtain ⟨d2, he, _, _, h4, h5, h6⟩ :=
      applyFilter_spec d c v i (fun x y => decide (y ≤ x)) (fun x y => y ≤ x)
        (fun x y => by simp) hc
    exact ⟨d2, by rw [filterTool_ge, he], h4,
      fun r hr => ⟨(h5 r hr).1, (compSat_ge _ _).mpr (h5 r hr).2⟩,
      fun r hr hn hs => h6 r hr hn ((compSat_ge _ _).mp hs)⟩

/-- Witness for C2: filtering the example table by `a < 2`. -/
theorem filter_retains_exactly_matching_rows_witness :
    ∃ d2 : Dataset,
      filterTool ⟨some dEx⟩ "a" 2 "less" = (.ok (.success d2.rows.length), ⟨some d2⟩) ∧
      d2.rows.length ≤ dEx.rows.length ∧
      (∀ r ∈ d2.rows, r ∈ dEx.rows ∧ compSat "less" (cellAt r 0) 2) ∧
      (∀ r ∈ dEx.rows, r ∉ d2.rows → ¬ compSat "less" (cellAt r 0) 2) :=
  filter_retains_exactly_matching_rows dEx "a" 2 "less" 0 (by decide) (by decide)

/-- A recognized branch applied to its own output is the identity: the
comparison already holds of every surviving row. -/
lemma applyFilter_idem (d : Dataset) (c : String) (v : ℚ) (i : Nat)
    (cmp : ℚ → ℚ → Bool) (hc : d.colIdx c = some i) :
    ∃ d2 : Dataset,
      (applyFilter ⟨some d⟩ d c v cmp).2 = ⟨some d2⟩ ∧
      applyFilter ⟨some d2⟩ d2 c v cmp = (.ok (.success d2.rows.length), ⟨some d2⟩) := by
  have hc2 : (⟨d.cols, d.rows.filter (fun r => cmp (cellAt r i) v)⟩ : Dataset).colIdx c
      = some i := hc
  have hff : (d.rows.filter (fun r => cmp (cellAt r i) v)).filter
        (fun r => cmp (cellAt r i) v)
      = d.rows.filter (fun r => cmp (cellAt r i) v) := by
    rw [List.filter_filter]
    simp [Bool.and_self]
  refine ⟨⟨d.cols, d.rows.filter (fun r => cmp (cellAt r i) v)⟩, ?_, ?_⟩
  · unfold applyFilter
    rw [hc]
  · unfold applyFilter
    rw [hc2]
    simp [hff]

/-- C8: applying the same `filter(column, value, comparator)` twice in
succession, with a recognized comparator and the column present, is
idempotent: the second application returns the very same table and the
same row count, excluding no further row. -/
theorem filter_is_idempotent
    (d : Dataset) (c : String) (v : ℚ) (b : String) (i : Nat)
    (hc : d.colIdx c = some i) (hb : b ∈ validComparators) :
    ∃ d2 : Dataset,
      (filterTool ⟨some d⟩ c v b).2 = ⟨some d2⟩ ∧
      filterTool ⟨some d2⟩ c v b = (.ok (.success d2.rows.length), ⟨some d2⟩) := by
  simp only [validComparators, List.mem_cons, List.not_mem_nil, or_false] at hb
  rcases hb with rfl | rfl | rfl | rfl | rfl
  · obtain ⟨d2, h1, h2⟩ := applyFilter_idem d c v i (fun x y => decide (x = y)) hc
    exact ⟨d2, by rw [filterTool_equal]; exact h1, by rw [filterTool_equal]; exact h2⟩
  · obtain ⟨d2, h1, h2⟩ := applyFilter_idem d c v i (fun x y => decide (x < y)) hc
    exact ⟨d2, by rw [filterTool_less]; exact h1, by rw [filterTool_less]; exact h2⟩
  · obtain ⟨d2, h1, h2⟩ := applyFilter_idem d c v i (fun x y => decide (x ≤ y)) hc
    exact ⟨d2, by rw [filterTool_le]; exact h1, by rw [filterTool_le]; exact h2⟩
  · obtain ⟨d2, h1, h2⟩ := applyFilter_idem d c v i (fun x y => decide (y < x)) hc
    exact ⟨d2, by rw [filterTool_greater]; exact h1, by rw [filterTool_greater]; exact h2⟩
  · obtain ⟨d2, h1, h2⟩ := applyFilter_idem d c v i (fun x y => decide (y ≤ x)) hc
    exact ⟨d2, by rw [filterTool_ge]; exact h1, by rw [filterTool_ge]; exact h2⟩

/-- Witness for C8: re-filtering the example table by `a < 2`. -/
theorem filter_is_idempotent_witness :
    ∃ d2 : Dataset,
      (filterTool ⟨some dEx⟩ "a" 2 "less").2 = ⟨some d2⟩ ∧
      filterTool ⟨some d2⟩ "a" 2 "less" = (.ok (.success d2.rows.length), ⟨some d2⟩) :=
  filter_is_idempotent dEx "a" 2 "less" 0 (by decide) (by decide)

/-- C5: on a loaded dataset with the column present, `remove_outliers`
retains exactly the rows whose value in that column lies in the closed
interval `[Q1 - 1.5*IQR, Q3 + 1.5*IQR]`, where `Q1` and `Q3` are the
first and third quartiles of the column and `IQR = Q3 - Q1`, and reports
the new row count in its success result. -/
theorem remove_outliers_keeps_iqr_interval (d : Dataset) (c : String) (i : Nat)
    (hc : d.colIdx c = some i) :
    ∃ d2 : Dataset,
      remove_outliers ⟨some d⟩ c = (.ok (.success d2.rows.length), ⟨some d2⟩) ∧
      (∀ r, r ∈ d2.rows ↔ r ∈ d.rows ∧
        seriesQuantile (d.column i) (1/4)
            - (3/2) * (seriesQuantile (d.column i) (3/4) - seriesQuantile (d.column i) (1/4))
          ≤ cellAt r i ∧
        cellAt r i ≤ seriesQuantile (d.column i) (3/4)
            + (3/2) * (seriesQuantile (d.column i) (3/4) - seriesQuantile (d.column i) (1/4))) := by
  refine ⟨⟨d.cols, d.rows.filter (fun r =>
      decide (seriesQuantile (d.column i) (1/4)
          - (3/2) * (seriesQuantile (d.column i) (3/4) - seriesQuantile (d.column i) (1/4))
        ≤ cellAt r i) &&
      decide (cellAt r i ≤ seriesQuantile (d.column i) (3/4)
          + (3/2) * (seriesQuantile (d.column i) (3/4) - seriesQuantile (d.column i) (1/4))))⟩,
    ?_, ?_⟩
  · simp only [remove_outliers, hc]
  · intro r
    simp [List.mem_filter, and_assoc]

/-- Witness for C5 on the example table (no value of column `a` is an
outlier there, so both rows survive). -/
theorem remove_outliers_keeps_iqr_interval_witness :
    ∃ d2 : Dataset,
      remove_outliers ⟨some dEx⟩ "a" = (.ok (.success d2.rows.length), ⟨some d2⟩) ∧
      (∀ r, r ∈ d2.rows ↔ r ∈ dEx.rows ∧
        seriesQuantile (dEx.column 0) (1/4)
            - (3/2) * (seriesQuantile (dEx.column 0) (3/4) - seriesQuantile (dEx.column 0) (1/4))
          ≤ cellAt r 0 ∧
        cellAt r 0 ≤ seriesQuantile (dEx.column 0) (3/4)
            + (3/2) * (seriesQuantile (dEx.column 0) (3/4) - seriesQuantile (dEx.column 0) (1/4))) :=
  remove_outliers_keeps_iqr_interval dEx "a" 0 (by decide)

/-! ## Conversation-loop lemmas -/

/-- If the pending response is an unrecognized finish reason, one loop
iteration changes nothing, so no amount of fuel produces an answer. -/
lemma runLoop_stuck_on_other (oracle : Nat → Finish) (tools : String → String → String)
    (st : LoopState) (rr : String) (hst : st.resp = .other rr) :
    ∀ fuel, runLoop oracle tools fuel st = none := by
  intro fuel
  induction fuel with
  | zero => rfl
  | succ n ih =>
    rw [runLoop, hst]
    exact ih

/-- C3 (refuted intent, actual behavior): when the first model response
signals neither stop nor tool calls, `process_query` never terminates: for
every fuel bound the loop re-examines the same response and makes no
progress.  The claim says the loop should instead end the query in a
`Failed` state with a diagnostic; the code prints the finish reason and
spins. -/
theorem process_query_spins_on_unrecognized_finish
    (r : String) (o : Nat → Finish) (tools : String → String → String)
    (q : String) (fuel : Nat) :
    process_query (fun n => if n = 0 then .other r else o n) tools q fuel = none := by
  apply runLoop_stuck_on_other _ _ _ r
  rfl

/-- C6: when the model first requests exactly one tool call and then
signals stop, `process_query` makes exactly two model calls and one tool
invocation; the second model call receives the history with the assistant
record of the call and the record carrying the tool's returned payload
already folded in (in that order), and the final history is
`[user query, assistant call record, tool-result record]`. -/
theorem one_toolcall_then_stop_shape (tools : String → String → String)
    (q nm ag fin : String) :
    process_query (fun n => if n = 0 then .toolCalls [⟨nm, ag⟩] else .stop fin) tools q 2 =
      some (String.intercalate "\n"
          [callingLine nm ag, responseLine (tools nm ag), fin],
        { messages := [⟨"user", q⟩, ⟨"assistant", callingLine nm ag⟩,
            ⟨"user", tools nm ag⟩]
          finalText := [callingLine nm ag, responseLine (tools nm ag), fin]
          resp := .stop fin
          modelCalls := 2
          toolInvocations := 1
          events := [(nm, ag, tools nm ag)]
          callInputs := [[⟨"user", q⟩],
            [⟨"user", q⟩, ⟨"assistant", callingLine nm ag⟩, ⟨"user", tools nm ag⟩]] }) := rfl

/-- `transcript` distributes over event-log concatenation. -/
lemma transcript_append (a b : List (String × String × String)) :
    transcript (a ++ b) = transcript a ++ transcript b := by
  simp [transcript]

/-- Dispatching a turn of tool calls preserves the invariant that
`final_text` is exactly the transcript of the dispatched events. -/
lemma dispatchCalls_transcript (oracle : Nat → Finish) (tools : String → String → String) :
    ∀ (cs : List ToolCall) (st : LoopState),
      st.finalText = transcript st.events →
      (dispatchCalls oracle tools cs st).finalText
        = transcript (dispatchCalls oracle tools cs st).events := by
  intro cs
  induction cs with
  | nil => intro st h; exact h
  | cons tc rest ih =>
    intro st h
    apply ih
    simp [dispatchOne, transcript_append, h, transcript]

/-- Any terminating run whose entry state satisfies the transcript
invariant ends on a stop response, with the answer the newline-join of the
transcript of all dispatched events followed by the stop content. -/
lemma runLoop_answer (oracle : Nat → Finish) (tools : String → String → String) :
    ∀ (fuel : Nat) (st : LoopState),
      st.finalText = transcript st.events →
      ∀ (ans : String) (st2 : LoopState),
        runLoop oracle tools fuel st = some (ans, st2) →
        ∃ c, st2.resp = .stop c ∧
          ans = String.intercalate "\n" (transcript st2.events ++ [c]) := by
  intro fuel
  induction fuel with
  | zero => intro st _ ans st2 h; exact absurd h (by simp [runLoop])
  | succ n ih =>
    intro st hinv ans st2 h
    rw [runLoop] at h
    cases hr : st.resp with
    | stop c =>
      rw [hr] at h
      obtain ⟨h1, h2⟩ := Prod.mk.injEq _ _ _ _ ▸ Option.some.injEq _ _ ▸ h
      refine ⟨c, ?_, ?_⟩
      · rw [← h2]
      · rw [← h1, ← h2, hinv]
    | toolCalls cs =>
      rw [hr] at h
      exact ih _ (dispatchCalls_transcript oracle tools cs st hinv) ans st2 h
    | other rr =>
      rw [hr] at h
      exact ih _ hinv ans st2 h

/-- C10: for every terminating run of `process_query`, the returned
answer is not just the model's closing content: it is the newline-join
of, per tool invocation in dispatch order, the calling line and the
response line, followed by the content of the final stop message. -/
theorem answer_embeds_tool_transcript (oracle : Nat → Finish)
    (tools : String → String → String) (q : String) (fuel : Nat)
    (ans : String) (st2 : LoopState)
    (h : process_query oracle tools q fuel = some (ans, st2)) :
    ∃ c, st2.resp = .stop c ∧
      ans = String.intercalate "\n" (transcript st2.events ++ [c]) :=
  runLoop_answer oracle tools fuel (initState oracle q) rfl ans st2 h

/-- The final loop state of a query whose very first model response stops
with content `done`. -/
def immediateStopState : LoopState where
  messages := [⟨"user", "hi"⟩]
  finalText := ["done"]
  resp := .stop "done"
  modelCalls := 1
  toolInvocations := 0
  events := []
  callInputs := [[⟨"user", "hi"⟩]]

/-- Witness for C10: a run that stops immediately with content `done`. -/
theorem answer_embeds_tool_transcript_witness :
    ∃ c, immediateStopState.resp = .stop c ∧
      "done" = String.intercalate "\n" (transcript immediateStopState.events ++ [c]) :=
  answer_embeds_tool_transcript (fun _ => .stop "done") (fun _ _ => "") "hi" 1
    "done" immediateStopState rfl

/-! ## Path-resolution lemmas -/

/-- Appending the `.csv` extension cannot make a name start with the base
directory: the base directory ends in a slash, so none of its nonempty
tails is a prefix of `.csv`. -/
lemma not_baseDir_prefix_append (name : List Char)
    (hpn : ¬ baseDir <+: name) : ¬ baseDir <+: (name ++ csvExt) := by
  intro h
  by_cases hle : baseDir.length ≤ name.length
  · exact hpn ((List.isPrefix_append_of_length hle).mp h)
  · push_neg at hle
    have hn : name <+: baseDir := by
      rcases List.prefix_or_prefix_of_prefix h (List.prefix_append name csvExt) with h1 | h2
      · exact absurd h1 hpn
      · exact h2
    have hbase : baseDir = name ++ baseDir.drop name.length := by
      conv_lhs => rw [← List.take_append_drop name.length baseDir]
      rw [← List.prefix_iff_eq_take.mp hn]
    have ht : baseDir.drop name.length <+: csvExt := by
      have h2 := h
      rw [hbase, List.prefix_append_right_inj] at h2
      exact h2
    have htake : baseDir.drop name.length
        = csvExt.take (baseDir.drop name.length).length :=
      List.prefix_iff_eq_take.mp ht
    have hsuf : csvExt.take (baseDir.drop name.length).length <:+ baseDir :=
      htake ▸ ⟨name, hbase.symm⟩
    have hlb : baseDir.length = 37 := by decide
    have hlc : csvExt.length = 4 := by decide
    have hlen3 : baseDir.length ≤ name.length + csvExt.length := by
      have := h.length_le
      rwa [List.length_append] at this
    have hld : (baseDir.drop name.length).length = baseDir.length - name.length :=
      List.length_drop _ _
    have hk : (baseDir.drop name.length).length = 1 ∨
        (baseDir.drop name.length).length = 2 ∨
        (baseDir.drop name.length).length = 3 ∨
        (baseDir.drop name.length).length = 4 := by omega
    rcases hk with hke | hke | hke | hke <;> rw [hke] at hsuf <;> revert hsuf <;> decide

/-- Appending the `.csv` extension neither creates nor destroys the
base-directory prefix. -/
lemma baseDir_isPrefixOf_append (name : List Char) :
    baseDir.isPrefixOf (name ++ csvExt) = baseDir.isPrefixOf name := by
  by_cases hp : baseDir <+: name
  · rw [List.isPrefixOf_iff_prefix.mpr hp,
      List.isPrefixOf_iff_prefix.mpr (hp.trans (List.prefix_append name csvExt))]
  · have h2 := not_baseDir_prefix_append name hp
    rw [Bool.eq_iff_iff]
    simp [List.isPrefixOf_iff_prefix, hp, h2]

/-- C9: the path `load_data` resolves for a dataset name appends the
`.csv` extension exactly when the given name does not already end with
it, and prefixes the base directory
`examples/DA-Agent/data/da-dev-tables/` exactly when the given name does
not already start with it; a name already carrying the extension, or
already rooted under the base directory, is left unchanged in that
respect. -/
theorem resolvePath_normalizes (name : List Char) :
    resolvePath name =
      (if baseDir.isPrefixOf name then [] else baseDir) ++
      (if csvExt.isSuffixOf name then name else name ++ csvExt) := by
  simp only [resolvePath]
  by_cases hs : csvExt.isSuffixOf name = true
  · rw [if_pos hs]
    by_cases hp : baseDir.isPrefixOf name = true
    · rw [if_pos hp, if_pos hp, List.nil_append]
    · rw [if_neg hp, if_neg hp]
  · rw [if_neg hs, baseDir_isPrefixOf_append]
    by_cases hp : baseDir.isPrefixOf name = true
    · rw [if_pos hp, if_pos hp, List.nil_append]
    · rw [if_neg hp, if_neg hp]

end InfiAgent
